import Mathlib

/-!
Shallow embedding of the `PreInscriberWithProtection` transaction-chain
builder of the ordit-sdk repository.

Modelling conventions:
* External collaborators (the datasource, the bitcoinjs-lib transaction
  primitives, the bitcoinselect coin-selection / funding / size-estimation
  library) are components of an `Env` record; the spec places them out of
  scope, so theorems about them take their documented contracts as
  hypotheses.
* Base64/hex serialization of PSBTs is out of scope per the spec, so
  `decodePSBT`/`toBase64` are modelled as the identity: PSBTs travel as
  structured values.
* JavaScript numbers are modelled as rationals (fee rates are produced by
  exact division in the source).
* A JavaScript `TypeError` caused by a non-null assertion (`x!`) or an
  undefined property access is modelled as `SdkError.runtimeCrash`;
  a thrown `OrditSDKError` is modelled as `SdkError.msg` with the thrown
  message.
* Transaction ids are reversed-hex strings; a `PsbtInput.hash` field stores
  the display-order txid string, so the source's
  `reverseBuffer(hash).toString("hex")` is already applied.
-/

namespace Ordit

/-- Classification of an address or output script, as returned by the
address-derivation primitives library (`getAddressType` / `getScriptType`). -/
inductive ScriptKind where
  | p2pkh
  | p2sh
  | p2wsh
  | p2wpkh
  | p2tr
  | unknown
  deriving DecidableEq

/-- Inscription envelope payload handed to the witness-script builder. -/
structure Envelope where
  mediaContent : String
  mediaType : String
  receiverAddress : String
  postage : ℤ
  deriving DecidableEq

/-- Bitcoin scripts, modelled symbolically: raw byte scripts, the compiled
single-key `OP_CHECKSIG` redeem leaf, and the data-carrying envelope leaf
(script compilation with length-prefixed pushes is injective, so the
symbolic form is faithful for equality reasoning). -/
inductive Script where
  | raw (bytes : List Nat)
  | checksig (xkey : String)
  | envelopeScript (xkey : String) (envelopes : List Envelope)
  deriving DecidableEq

/-- Modelled from the spec: `buildWitnessScriptV2` (the inscription-envelope
witness-script builder from the repository's inscription module, whose source
is not included under src/) builds the unspendable data leaf committing the
serialized envelope under the given x-only key (spec section 4.1). -/
def buildWitnessScriptV2 (xkey : String) (envelopes : List Envelope) : Script :=
  Script.envelopeScript xkey envelopes

/-- Witness data of a spent output carried on a PSBT input. -/
structure WitnessUtxo where
  script : Script
  value : ℤ
  deriving DecidableEq

/-- A PSBT input: spent-output reference plus witness/taproot metadata. -/
structure PsbtInput where
  hash : String
  index : Nat
  witnessUtxo : Option WitnessUtxo
  tapInternalKey : Option String
  tapMerkleRoot : Option String
  sighashType : Option Nat
  redeemScript : Option Script
  deriving DecidableEq

/-- A transaction output as stored on a PSBT (script and value). -/
structure TxOutput where
  script : Script
  value : ℤ
  deriving DecidableEq

/-- A partially-signed transaction. -/
structure Psbt where
  inputs : List PsbtInput
  outputs : List TxOutput
  deriving DecidableEq

/-- A requested output: destination address and amount. -/
structure Output where
  address : String
  value : ℤ
  deriving DecidableEq

/-- An unspent output of the buyer, as returned by the datasource. -/
structure UTXO where
  txid : String
  n : Nat
  sats : ℤ
  address : String
  deriving DecidableEq

/-- An inscription-index record. -/
structure Inscription where
  outpoint : String
  owner : String
  deriving DecidableEq

/-- Result of taproot payment derivation (`bitcoin.payments.p2tr`). -/
structure Payment where
  address : Option String
  hash : Option String
  output : Option Script
  deriving DecidableEq

/-- Result of script classification (`getScriptType`): the script family and
the payload address derived from the script, when one exists. -/
structure ScriptTypeInfo where
  kind : ScriptKind
  address : Option String
  deriving DecidableEq

/-- Errors: `msg` models a thrown `OrditSDKError` with its message, and
`runtimeCrash` models a JavaScript `TypeError` from a non-null assertion or
an undefined property access. -/
inductive SdkError where
  | msg (s : String)
  | runtimeCrash
  deriving DecidableEq

/-- A coin-selection candidate input: the PSBT input descriptor produced by
`processInput` together with the txid/vout/value/isTaproot fields the
coin-selection library needs. -/
structure CSInput where
  txid : String
  vout : Nat
  value : ℤ
  isTaproot : Bool
  base : PsbtInput
  deriving DecidableEq

/-- An output as returned by the coin-selection library (the change output
carries no address; a missing value is a library fault the builder checks). -/
structure CSOutput where
  address : Option String
  value : Option ℤ
  deriving DecidableEq

/-- Result of running coin selection. -/
structure CSResult where
  inputs : List CSInput
  outputs : List CSOutput

/-- Input summary handed to the size/funding estimators of the
coin-selection library. -/
structure FeeInput where
  value : ℤ
  isTaproot : Bool
  deriving DecidableEq

/-- The external collaborators of the builder, bundled: the datasource, the
bitcoinjs-lib primitives and the bitcoinselect library (all explicitly out
of scope per the spec). -/
structure Env where
  getAddressType : String → String → ScriptKind
  getScriptType : Script → String → ScriptTypeInfo
  isP2TR : Script → String → Bool
  addressToScript : String → Script
  toXOnly : String → String
  p2trPayment : String → Script → Script → String → Payment
  txIdOf : Psbt → String
  txIdWithRedeems : Psbt → List CSInput → String
  coinSelect : List CSInput → List Output → ℚ → String → CSResult
  funding : List FeeInput → List TxOutput → ℚ → ℤ
  transactionBytes : List FeeInput → List TxOutput → ℤ
  getUnspents : String → List UTXO
  getInscriptions : String → List Inscription
  processInput : UTXO → String → String → PsbtInput

/-- The per-call session of a `PreInscriberWithProtection` instance: the
constructor-set readonly fields. -/
structure PreInscriber where
  network : String
  chain : String
  escrowPublicKey : String
  inscriptionsPsbts : List Psbt
  buyerAddress : String
  buyerPublicKey : String
  receiveAddress : String
  effectiveFeeRate : ℚ
  extraOutputs : List Output

/-- The produced artifact: the three serialized partially-signed
transactions. -/
structure BuildResponse where
  firstTransactionPSBT : Psbt
  secondTransactionPSBTs : List Psbt
  thirdTransactionPSBT : Psbt
  deriving DecidableEq

/-- Response of the static escrow-address helper. -/
structure EscrowResponse where
  address : String
  merkleHash : String
  deriving DecidableEq

/-- Fixed low fee rate used for the first and second transactions. -/
def BASE_FEERATE : ℚ := 2

/-- bitcoinjs-lib `Transaction.SIGHASH_ALL`. -/
def SIGHASH_ALL : Nat := 1

/-- All-zero dummy txid (`Buffer.alloc(32, 0)`), in hex. -/
def zeroTxid : String :=
  "0000000000000000000000000000000000000000000000000000000000000000"

/-- Network actually used for payment derivation: fractal-bitcoin chains
derive on mainnet parameters. -/
def effectiveNetwork (chain network : String) : String :=
  if chain = "fractal-bitcoin" then "mainnet" else network

/-- Value contributed by a PSBT input: `input.witnessUtxo?.value ?? 0`. -/
def inputWitnessValue (i : PsbtInput) : ℤ :=
  match i.witnessUtxo with
  | some w => w.value
  | none => 0

/-- Fees paid by a PSBT: sum of input witness values minus sum of output
values (`getTotalFees`). -/
def getTotalFees (psbt : Psbt) : ℤ :=
  (psbt.inputs.map inputWitnessValue).sum - (psbt.outputs.map TxOutput.value).sum

/-- Fields of a PSBT input the size/funding estimators consume. -/
def feeInputOf (env : Env) (network : String) (i : PsbtInput) : FeeInput :=
  { value := inputWitnessValue i,
    isTaproot :=
      match i.witnessUtxo with
      | some w => env.isP2TR w.script network
      | none => false }

/-- Virtual size of a PSBT, via the external `utils.transactionBytes`. -/
def getVBytes (env : Env) (self : PreInscriber) (psbt : Psbt) : ℤ :=
  env.transactionBytes (psbt.inputs.map (feeInputOf env self.network)) psbt.outputs

/-- Static `calculateFundingAmount`: the sats needed to fund the PSBT at the
given fee rate, via the external `funding` estimator (p2tr detection there
uses mainnet, as the source notes networks do not matter for it). -/
def calculateFundingAmount (env : Env) (psbt : Psbt) (feeRate : ℚ) : ℤ :=
  env.funding (psbt.inputs.map (feeInputOf env "mainnet")) psbt.outputs feeRate

/-- JavaScript truthiness filter on the optional sighash type
(`...(sighashType ? { sighashType } : undefined)`): 0 is falsy. -/
def sighashFilter (s : Option Nat) : Option Nat :=
  match s with
  | some 0 => none
  | x => x

/-- Outpoint string `txid:vout` of the output spent by a PSBT input. -/
def outpointOf (i : PsbtInput) : String :=
  i.hash ++ ":" ++ toString i.index

/-- JSON serialization of the escrow envelope content
`{ inscriptionOutpoint }` (outpoint strings are hex digits and a colon, so
no JSON character escaping arises). -/
def stringifyOutpointContent (inscriptionOutpoint : String) : String :=
  "\x7b\"inscriptionOutpoint\":\"" ++ inscriptionOutpoint ++ "\"\x7d"

/-- JSON serialization of the buyer-commitment envelope content
`{ buyerPublicKey, buyerAddress, uniqueId }`. -/
def stringifyCommitContent (buyerPublicKey buyerAddress uniqueId : String) : String :=
  "\x7b\"buyerPublicKey\":\"" ++ buyerPublicKey ++ "\",\"buyerAddress\":\""
    ++ buyerAddress ++ "\",\"uniqueId\":\"" ++ uniqueId ++ "\"\x7d"

/-- Static `getEscrowTaprootAddress`: derive the escrow taproot address and
script-tree merkle hash committing the inscription outpoint. -/
def getEscrowTaprootAddress (env : Env) (inscriptionOutpoint escrowPublicKey network chain : String) :
    Except SdkError EscrowResponse :=
  let escrowXPub := env.toXOnly escrowPublicKey
  let mediaContent := stringifyOutpointContent inscriptionOutpoint
  let dataScript := buildWitnessScriptV2 escrowXPub
    [{ mediaContent := mediaContent,
       mediaType := "application/json;charset=utf-8",
       receiverAddress := "",
       postage := 0 }]
  let redeemScript := Script.checksig escrowXPub
  let payment := env.p2trPayment escrowXPub redeemScript dataScript
    (effectiveNetwork chain network)
  match payment.address, payment.hash with
  | some a, some h => Except.ok { address := a, merkleHash := h }
  | _, _ => Except.error (SdkError.msg "Error while creating escrow address")

/-- `getBuyerCommitAddress`: derive the buyer's taproot commitment address;
the resulting payment object (source: cached on the session) is returned for
explicit threading. -/
def getBuyerCommitAddress (env : Env) (self : PreInscriber) (uniqueId : String) :
    Except SdkError (String × Payment) :=
  let buyerXPub := env.toXOnly self.buyerPublicKey
  let mediaContent := stringifyCommitContent self.buyerPublicKey self.buyerAddress uniqueId
  let dataScript := buildWitnessScriptV2 buyerXPub
    [{ mediaContent := mediaContent,
       mediaType := "application/json;charset=utf-8",
       receiverAddress := self.buyerAddress,
       postage := 0 }]
  let redeemScript := Script.checksig buyerXPub
  let payment := env.p2trPayment buyerXPub redeemScript dataScript
    (effectiveNetwork self.chain self.network)
  match payment.address with
  | some a => Except.ok (a, payment)
  | none => Except.error (SdkError.msg "Error while creating escrow address")

/-- Per-PSBT body of `validateInscriptionPsbts`: witness presence, seller
address derivation from the witness script, and unmoved/ownership checks
against the inscription index. -/
def validateInscriptionPsbt (env : Env) (network : String) (psbt : Psbt) :
    Except SdkError Unit :=
  match psbt.inputs[0]? with
  | none => Except.error SdkError.runtimeCrash
  | some input =>
    let outpoint := outpointOf input
    match input.witnessUtxo with
    | none => Except.error (SdkError.msg "invalid seller psbt")
    | some w =>
      match (env.getScriptType w.script network).address with
      | none => Except.error (SdkError.msg "invalid seller address in psbt")
      | some sellerAddress =>
        let inscriptionsRes := env.getInscriptions outpoint
        if inscriptionsRes.isEmpty then
          Except.error (SdkError.msg ("Inscription at " ++ outpoint ++ " not found"))
        else if inscriptionsRes.any
            (fun insc => insc.outpoint == outpoint && insc.owner == sellerAddress) then
          Except.ok ()
        else
          Except.error (SdkError.msg ("Inscription at " ++ outpoint ++ " does not match"))

/-- `validateInscriptionPsbts` over the batch; the source's `Promise.all`
rejects with the first failure (fail-fast), modelled sequentially. -/
def validateInscriptionPsbts (env : Env) (network : String) (psbts : List Psbt) :
    Except SdkError Unit :=
  psbts.forM (validateInscriptionPsbt env network)

/-- `getBuyerUtxos`: fetch the buyer's spendable UTXOs once per build. -/
def getBuyerUtxos (env : Env) (self : PreInscriber) : Except SdkError (List UTXO) :=
  if self.buyerAddress ≠ "" then
    let spendableUTXOs := env.getUnspents self.buyerAddress
    if spendableUTXOs.isEmpty then
      Except.error (SdkError.msg ("No spendable utxos found for " ++ self.buyerAddress))
    else
      Except.ok spendableUTXOs
  else
    Except.ok []

/-- A buyer UTXO prepared for coin selection: `processInput` descriptor plus
the txid/vout/value/isTaproot fields. -/
def mkSelectionInput (env : Env) (self : PreInscriber) (u : UTXO) : CSInput :=
  { txid := u.txid,
    vout := u.n,
    value := u.sats,
    isTaproot := env.getAddressType u.address self.network == ScriptKind.p2tr,
    base := env.processInput u self.buyerPublicKey self.network }

/-- Body of the source's selected-input loop: re-find the full candidate
input matching the selected txid/vout (the source's non-null assertion on a
failed lookup is the runtime crash) and add it with `hash`/`index` set. -/
def selectionToPsbtInput (inputs : List CSInput) (sel : CSInput) : Except SdkError PsbtInput :=
  match inputs.find? (fun i => i.txid == sel.txid && i.vout == sel.vout) with
  | some found =>
    Except.ok ({ found.base with hash := found.txid, index := sel.vout } : PsbtInput)
  | none => Except.error SdkError.runtimeCrash

/-- Body of the source's output loop: require a value (sanity check) and
default a missing address (change) to the buyer's address. -/
def csOutputToTxOutput (env : Env) (self : PreInscriber) (o : CSOutput) :
    Except SdkError TxOutput :=
  match o.value with
  | none => Except.error (SdkError.msg "Output value is required")
  | some v =>
    Except.ok ({ script := env.addressToScript (o.address.getD self.buyerAddress),
                 value := v } : TxOutput)

/-- `createFirstTransaction`: coin-select buyer UTXOs against the requested
outputs, build the PSBT, and capture the (redeem-script adjusted) unsigned
txid. -/
def createFirstTransaction (env : Env) (self : PreInscriber) (buyerUtxos : List UTXO)
    (outputs : List Output) : Except SdkError (Psbt × String) :=
  let inputs := buyerUtxos.map (mkSelectionInput env self)
  let res := env.coinSelect inputs outputs BASE_FEERATE self.buyerAddress
  if res.inputs.isEmpty then
    Except.error (SdkError.msg "No input utxo found. Not enough funds.")
  else if res.outputs.isEmpty then
    Except.error (SdkError.msg "No output found.")
  else
    match res.inputs.mapM (selectionToPsbtInput inputs) with
    | Except.error e => Except.error e
    | Except.ok psbtInputs =>
      match res.outputs.mapM (csOutputToTxOutput env self) with
      | Except.error e => Except.error e
      | Except.ok psbtOutputs =>
        let psbt : Psbt := { inputs := psbtInputs, outputs := psbtOutputs }
        Except.ok (psbt, env.txIdWithRedeems psbt res.inputs)

/-- `generateInputFromPSBTOutput`: derive a chaining input descriptor from a
prior PSBT's output, dispatching on its script type. -/
def generateInputFromPSBTOutput (env : Env) (network : String) (psbt : Psbt)
    (outputIndex : Nat) (publicKey : String) (sighashType : Option Nat) :
    Except SdkError PsbtInput :=
  let txid := env.txIdOf psbt
  match psbt.outputs[outputIndex]? with
  | none => Except.error SdkError.runtimeCrash
  | some psbtOutput =>
    match (env.getScriptType psbtOutput.script network).kind with
    | ScriptKind.p2tr =>
      Except.ok
        { hash := txid,
          index := outputIndex,
          tapInternalKey := some (env.toXOnly publicKey),
          witnessUtxo := some { script := psbtOutput.script, value := psbtOutput.value },
          tapMerkleRoot := none,
          sighashType := sighashFilter sighashType,
          redeemScript := none }
    | ScriptKind.p2wpkh =>
      Except.ok
        { hash := txid,
          index := outputIndex,
          tapInternalKey := none,
          witnessUtxo := some { script := psbtOutput.script, value := psbtOutput.value },
          tapMerkleRoot := none,
          sighashType := sighashFilter sighashType,
          redeemScript := none }
    | _ => Except.error (SdkError.msg "scripts other than p2tr and p2wpkh are not supported!")

/-- `createSecondTransaction`: append the first transaction's output at the
given index as a new SIGHASH_ALL input (with the buyer-commitment merkle
root) to the seller's inscription PSBT. -/
def createSecondTransaction (env : Env) (self : PreInscriber) (commitPayment : Payment)
    (firstTxId : String) (firstPsbt : Psbt) (outputIndex : Nat) (inscriptionPsbt : Psbt) :
    Except SdkError Psbt :=
  match generateInputFromPSBTOutput env self.network firstPsbt outputIndex
      self.buyerPublicKey (some SIGHASH_ALL) with
  | Except.error e => Except.error e
  | Except.ok base =>
    match commitPayment.hash with
    | none => Except.error SdkError.runtimeCrash
    | some h =>
      Except.ok { inscriptionPsbt with
        inputs := inscriptionPsbt.inputs
          ++ [{ base with hash := firstTxId, tapMerkleRoot := some h }] }

/-- `createWithdrawTransaction`: chain every second transaction's escrow
output and the first transaction's CPFP-funding output as inputs, mirror
each escrow value to the buyer's receive address and append the configured
extra outputs. -/
def createWithdrawTransaction (env : Env) (self : PreInscriber) (commitPayment : Payment)
    (firstTxId : String) (firstPsbt : Psbt) (firstTransactionOutputIndex : Nat)
    (secondTransactionPsbts : List Psbt) : Except SdkError Psbt :=
  match secondTransactionPsbts.mapM (fun psbt =>
      match psbt.inputs[0]? with
      | none => Except.error SdkError.runtimeCrash
      | some firstInput =>
        let inscriptionOutpoint := outpointOf firstInput
        match getEscrowTaprootAddress env inscriptionOutpoint self.escrowPublicKey
            self.network self.chain with
        | Except.error e => Except.error e
        | Except.ok escrow =>
          match generateInputFromPSBTOutput env self.network psbt 0
              self.escrowPublicKey (some SIGHASH_ALL) with
          | Except.error e => Except.error e
          | Except.ok base =>
            Except.ok { base with tapMerkleRoot := some escrow.merkleHash }) with
  | Except.error e => Except.error e
  | Except.ok inputs =>
    match inputs.mapM (fun inp =>
        match inp.witnessUtxo with
        | some w =>
          Except.ok (inp,
            ({ script := env.addressToScript self.receiveAddress, value := w.value } : TxOutput))
        | none => Except.error SdkError.runtimeCrash) with
    | Except.error e => Except.error e
    | Except.ok chained =>
      match generateInputFromPSBTOutput env self.network firstPsbt
          firstTransactionOutputIndex self.buyerPublicKey (some SIGHASH_ALL) with
      | Except.error e => Except.error e
      | Except.ok fundingBase =>
        match commitPayment.hash with
        | none => Except.error SdkError.runtimeCrash
        | some h =>
          Except.ok
            { inputs := chained.map Prod.fst
                ++ [{ fundingBase with hash := firstTxId, tapMerkleRoot := some h }],
              outputs := chained.map Prod.snd
                ++ self.extraOutputs.map (fun o =>
                    { script := env.addressToScript o.address, value := o.value }) }

/-- The dummy taproot input injected (only) for funding estimation of a
second transaction: all-zero txid, the buyer-commitment output script as
witness script, the dummy value as witness value. -/
def dummyCommitInput (env : Env) (self : PreInscriber) (commitScript : Script)
    (commitHash : String) (dummyAmount : ℤ) : PsbtInput :=
  { hash := zeroTxid,
    index := 0,
    tapInternalKey := some (env.toXOnly self.buyerPublicKey),
    witnessUtxo := some { script := commitScript, value := dummyAmount },
    tapMerkleRoot := some commitHash,
    sighashType := none,
    redeemScript := none }

/-- One per-inscription commitment-funding output of the first transaction:
funding estimate (at `BASE_FEERATE`) of the seller PSBT augmented with the
dummy input, plus the dummy amount. -/
def mkCommitFundingOutput (env : Env) (self : PreInscriber)
    (buyerCommitmentAddress : String) (commitPayment : Payment) (psbt : Psbt) :
    Except SdkError Output :=
  let dummyAmount : ℤ := 600
  match commitPayment.output, commitPayment.hash with
  | some commitScript, some commitHash =>
    let augmented : Psbt :=
      { psbt with inputs := psbt.inputs ++ [dummyCommitInput env self commitScript commitHash dummyAmount] }
    let fundingAmount := calculateFundingAmount env augmented BASE_FEERATE
    Except.ok { address := buyerCommitmentAddress, value := fundingAmount + dummyAmount }
  | _, _ => Except.error SdkError.runtimeCrash

/-- One pass of the fee-convergence do-while body: rebuild all three
transactions at the current CPFP funding and recompute the extra funding
needed for the aggregate to reach the effective fee rate. Returns the triple,
the recomputed `extraCPFPFunding` and the updated running `CPFPFunding`. -/
def buildIteration (env : Env) (self : PreInscriber) (uniqueId : String)
    (buyerUtxos : List UTXO) (cpfpFunding : ℤ) :
    Except SdkError (BuildResponse × ℤ × ℤ) :=
  match getBuyerCommitAddress env self uniqueId with
  | Except.error e => Except.error e
  | Except.ok (buyerCommitmentAddress, commitPayment) =>
    match self.inscriptionsPsbts.mapM
        (mkCommitFundingOutput env self buyerCommitmentAddress commitPayment) with
    | Except.error e => Except.error e
    | Except.ok commitOutputs =>
      match createFirstTransaction env self buyerUtxos
          (commitOutputs
            ++ [({ address := buyerCommitmentAddress, value := cpfpFunding } : Output)]) with
      | Except.error e => Except.error e
      | Except.ok (firstPsbt, firstTxId) =>
        match self.inscriptionsPsbts.enum.mapM (fun p =>
            createSecondTransaction env self commitPayment firstTxId firstPsbt p.1 p.2) with
        | Except.error e => Except.error e
        | Except.ok secondPsbts =>
          match createWithdrawTransaction env self commitPayment firstTxId firstPsbt
              ((commitOutputs
                ++ [({ address := buyerCommitmentAddress, value := cpfpFunding } : Output)]).length
                - 1)
              secondPsbts with
          | Except.error e => Except.error e
          | Except.ok thirdPsbt =>
            let totalVbytes := getVBytes env self firstPsbt + getVBytes env self thirdPsbt
              + (secondPsbts.map (getVBytes env self)).sum
            let desiredTotalFee : ℚ := self.effectiveFeeRate * (totalVbytes : ℚ)
            let feesPaidByFirstTx := getTotalFees firstPsbt
            let feesPaidBySecondTxs := (secondPsbts.map getTotalFees).sum
            let cpfpFeeRate : ℚ :=
              (desiredTotalFee - ((feesPaidByFirstTx + feesPaidBySecondTxs : ℤ) : ℚ))
              / ((getVBytes env self thirdPsbt : ℤ) : ℚ)
            let extraFunding := calculateFundingAmount env thirdPsbt cpfpFeeRate
            Except.ok
              ({ firstTransactionPSBT := firstPsbt,
                 secondTransactionPSBTs := secondPsbts,
                 thirdTransactionPSBT := thirdPsbt },
               extraFunding, cpfpFunding + extraFunding)

/-- The fee-convergence do-while loop. The source imposes no iteration
bound; `fuel` is a modelling artifact, and `Except.ok none` means the loop
was still running after `fuel` iterations (it is not an error of the
source). -/
def convergeLoop (env : Env) (self : PreInscriber) (uniqueId : String)
    (buyerUtxos : List UTXO) : Nat → ℤ → Except SdkError (Option BuildResponse)
  | 0, _ => Except.ok none
  | fuel + 1, cpfpFunding =>
    match buildIteration env self uniqueId buyerUtxos cpfpFunding with
    | Except.error e => Except.error e
    | Except.ok (res, extraCPFPFunding, newCPFPFunding) =>
      if extraCPFPFunding > 0 then
        convergeLoop env self uniqueId buyerUtxos fuel newCPFPFunding
      else
        Except.ok (some res)

/-- `buildTransactions`: parameter checks, batch validation, UTXO fetch,
then the fee-convergence loop seeded at a CPFP funding of 600 sats. -/
def buildTransactions (env : Env) (self : PreInscriber) (uniqueId : String) (fuel : Nat) :
    Except SdkError (Option BuildResponse) :=
  if self.inscriptionsPsbts.isEmpty then
    Except.error (SdkError.msg "inscriptionsPsbts are required")
  else
    let buyerAddressType := env.getAddressType self.buyerAddress self.network
    if buyerAddressType ≠ ScriptKind.p2sh ∧ buyerAddressType ≠ ScriptKind.p2wsh
        ∧ buyerAddressType ≠ ScriptKind.p2wpkh ∧ buyerAddressType ≠ ScriptKind.p2tr then
      Except.error (SdkError.msg
        ("Buyer address " ++ self.buyerAddress ++ " must be a segwit/taproot/p2sh address"))
    else
      match validateInscriptionPsbts env self.network self.inscriptionsPsbts with
      | Except.error e => Except.error e
      | Except.ok _ =>
        match getBuyerUtxos env self with
        | Except.error e => Except.error e
        | Except.ok buyerUtxos =>
          convergeLoop env self uniqueId buyerUtxos fuel 600

/-- Shape summary of a build response: first-transaction output count,
per-second-transaction input counts, third-transaction input and output
counts. -/
def txShape (r : BuildResponse) : Nat × List Nat × Nat × Nat :=
  (r.firstTransactionPSBT.outputs.length,
   r.secondTransactionPSBTs.map (fun s => s.inputs.length),
   r.thirdTransactionPSBT.inputs.length,
   r.thirdTransactionPSBT.outputs.length)

/-- Boolean substring test used to compare error messages against the
spec's quoted phrases. -/
def hasSubstring (needle hay : String) : Bool :=
  (List.range (hay.data.length + 1)).any
    (fun i => needle.data == (hay.data.drop i).take needle.data.length)

/-- Envelope content of a data leaf, when the script is one (used to build
concrete injective payment derivations in witnesses). -/
def leafContent : Script → String
  | Script.envelopeScript _ (e :: _) => e.mediaContent
  | _ => ""

/-- A concrete seller inscription PSBT: one signed input spending the
inscription outpoint `aa:0` (witness value 600), outputs routing the
inscription (600) to escrow and the payment (1000) to the seller. -/
def sellerPsbt1 : Psbt :=
  { inputs := [{ hash := "aa", index := 0,
                 witnessUtxo := some { script := Script.raw [0], value := 600 },
                 tapInternalKey := none, tapMerkleRoot := none,
                 sighashType := none, redeemScript := none }],
    outputs := [{ script := Script.raw [1], value := 600 },
                { script := Script.raw [1], value := 1000 }] }

/-- A second concrete seller PSBT, spending outpoint `bb:0`. -/
def sellerPsbt2 : Psbt :=
  { inputs := [{ hash := "bb", index := 0,
                 witnessUtxo := some { script := Script.raw [0], value := 600 },
                 tapInternalKey := none, tapMerkleRoot := none,
                 sighashType := none, redeemScript := none }],
    outputs := [{ script := Script.raw [1], value := 600 },
                { script := Script.raw [1], value := 1000 }] }

/-- A concrete buyer UTXO with ample funds. -/
def utxoW : UTXO := { txid := "u1", n := 0, sats := 1000000, address := "buyeraddr" }

/-- A concrete base environment: taproot buyer address, p2wpkh-classified
scripts with seller address "seller", one large buyer UTXO, an inscription
index owning every outpoint for "seller", coin selection that keeps the
requested outputs unchanged, and a funding estimator returning a constant 1
(so the fee loop never converges). -/
def envDiv : Env :=
  { getAddressType := fun _ _ => ScriptKind.p2tr,
    getScriptType := fun _ _ => { kind := ScriptKind.p2wpkh, address := some "seller" },
    isP2TR := fun _ _ => false,
    addressToScript := fun _ => Script.raw [1],
    toXOnly := fun s => s,
    p2trPayment := fun _ _ _ _ =>
      { address := some "commitaddr", hash := some "commithash", output := some (Script.raw [7]) },
    txIdOf := fun _ => "t0",
    txIdWithRedeems := fun _ _ => "t1",
    coinSelect := fun ins outs _ _ =>
      { inputs := ins,
        outputs := outs.map (fun o => { address := some o.address, value := some o.value }) },
    funding := fun _ _ _ => 1,
    transactionBytes := fun _ _ => 10,
    getUnspents := fun _ => [utxoW],
    getInscriptions := fun o => [{ outpoint := o, owner := "seller" }],
    processInput := fun u _ _ =>
      { hash := u.txid, index := u.n,
        witnessUtxo := some { script := Script.raw [2], value := u.sats },
        tapInternalKey := none, tapMerkleRoot := none,
        sighashType := none, redeemScript := none } }

/-- A concrete session with one seller PSBT. -/
def selfDiv : PreInscriber :=
  { network := "regtest", chain := "bitcoin", escrowPublicKey := "ek",
    inscriptionsPsbts := [sellerPsbt1],
    buyerAddress := "buyeraddr", buyerPublicKey := "bpk", receiveAddress := "recv",
    effectiveFeeRate := 8, extraOutputs := [] }

/-- Environment variant whose funding estimator returns the exact deficit
(outputs minus inputs) and whose coin selection only succeeds when the
provided inputs cover the requested outputs. -/
def envW7 : Env :=
  { envDiv with
    funding := fun ins outs _ =>
      (outs.map TxOutput.value).sum - (ins.map FeeInput.value).sum,
    coinSelect := fun ins outs _ _ =>
      if (outs.map Output.value).sum ≤ (ins.map CSInput.value).sum then
        { inputs := ins,
          outputs := outs.map (fun o => { address := some o.address, value := some o.value }) }
      else
        { inputs := [], outputs := [] } }

/-- Environment variant with a constant-zero funding estimator (the loop
converges on the first pass). -/
def envC2 : Env := { envDiv with funding := fun _ _ _ => 0 }

/-- A concrete session with two seller PSBTs, effective fee rate 8, and one
configured extra output (Scenario D of the spec). -/
def selfC2 : PreInscriber :=
  { selfDiv with
    inscriptionsPsbts := [sellerPsbt1, sellerPsbt2],
    extraOutputs := [{ address := "marketfee", value := 100 }] }

/-- The build response of the convergent Scenario D run (extracted so that
closed statements can name it). -/
def respC2 : BuildResponse :=
  match buildTransactions envC2 selfC2 "uniqueId" 5 with
  | Except.ok (some r) => r
  | _ => { firstTransactionPSBT := { inputs := [], outputs := [] },
           secondTransactionPSBTs := [],
           thirdTransactionPSBT := { inputs := [], outputs := [] } }

/-- The build response of the deficit-funded single-inscription run. -/
def respW7 : BuildResponse :=
  match buildTransactions envW7 selfDiv "u" 3 with
  | Except.ok (some r) => r
  | _ => { firstTransactionPSBT := { inputs := [], outputs := [] },
           secondTransactionPSBTs := [],
           thirdTransactionPSBT := { inputs := [], outputs := [] } }

/-- Seller PSBT with two inputs whose first input is valid (for the
input-count check of the validator). -/
def psbtTwoInputs : Psbt :=
  { inputs := [{ hash := "aa", index := 0,
                 witnessUtxo := some { script := Script.raw [0], value := 600 },
                 tapInternalKey := none, tapMerkleRoot := none,
                 sighashType := none, redeemScript := none },
               { hash := "cc", index := 1,
                 witnessUtxo := none,
                 tapInternalKey := none, tapMerkleRoot := none,
                 sighashType := none, redeemScript := none }],
    outputs := [{ script := Script.raw [1], value := 600 }] }

/-- Environment whose taproot payment derivation exposes the data-leaf
envelope content as the address (an injective-on-content derivation, used to
witness the collision-freeness idealization). -/
def envW4 : Env :=
  { envDiv with
    p2trPayment := fun _ _ dataLeaf _ =>
      { address := some (leafContent dataLeaf), hash := some "h", output := none } }

/-- Environment classifying every address as legacy p2pkh. -/
def envLeg : Env :=
  { envDiv with getAddressType := fun _ _ => ScriptKind.p2pkh }

/-- The build response produced by one pass of the loop body in the
never-converging environment (extracted for the divergence lemma). -/
def respDiv (c : ℤ) : BuildResponse :=
  match buildIteration envDiv selfDiv "u" [utxoW] c with
  | Except.ok (r, _, _) => r
  | _ => { firstTransactionPSBT := { inputs := [], outputs := [] },
           secondTransactionPSBTs := [],
           thirdTransactionPSBT := { inputs := [], outputs := [] } }

/-- The taproot payment underlying the escrow derivation for a given
envelope content (the intermediate value of `getEscrowTaprootAddress`,
exposed so that theorems can speak about it). -/
def escrowPaymentOfContent (env : Env) (escrowPublicKey network chain content : String) :
    Payment :=
  env.p2trPayment (env.toXOnly escrowPublicKey)
    (Script.checksig (env.toXOnly escrowPublicKey))
    (buildWitnessScriptV2 (env.toXOnly escrowPublicKey)
      [{ mediaContent := content, mediaType := "application/json;charset=utf-8",
         receiverAddress := "", postage := 0 }])
    (effectiveNetwork chain network)

/-- Environment whose inscription index is empty at every outpoint. -/
def envC3 : Env :=
  { envDiv with getInscriptions := fun _ => [] }

/-- A concrete buyer-commitment payment object. -/
def payW : Payment :=
  { address := some "commitaddr", hash := some "commithash", output := some (Script.raw [7]) }

/-- A concrete second transaction (extracted for closed statements). -/
def secondW : Psbt :=
  match createSecondTransaction envDiv selfDiv payW "t1" sellerPsbt1 0 sellerPsbt2 with
  | Except.ok s => s
  | _ => { inputs := [], outputs := [] }

/-! Generic inversion lemmas for the `Except` monad and its list
combinators, shared by the claim proofs. -/

theorem bind_ok_inv {ε α β : Type} {x : Except ε α} {g : α → Except ε β} {b : β}
    (h : x >>= g = Except.ok b) : ∃ a, x = Except.ok a ∧ g a = Except.ok b := by
  cases x with
  | error e => simp [Bind.bind, Except.bind] at h
  | ok a =>
    refine ⟨a, rfl, ?_⟩
    simpa [Bind.bind, Except.bind] using h

theorem pure_ok_inv {ε β : Type} {a b : β} (h : (pure a : Except ε β) = Except.ok b) :
    a = b := by
  simpa [pure, Except.pure] using h

theorem mapM_ok_inv {α β : Type} {f : α → Except SdkError β} :
    ∀ {l : List α} {ys : List β}, l.mapM f = Except.ok ys →
      ys.length = l.length ∧
      (∀ (i : Nat) (y : β), ys[i]? = some y → ∃ x, l[i]? = some x ∧ f x = Except.ok y) ∧
      (∀ (i : Nat) (x : α), l[i]? = some x → ∃ y, ys[i]? = some y ∧ f x = Except.ok y) := by
  intro l
  induction l with
  | nil =>
    intro ys h
    rw [List.mapM_nil] at h
    have := pure_ok_inv h
    subst this
    refine ⟨rfl, ?_, ?_⟩ <;> intro i x hx <;> simp at hx
  | cons a as ih =>
    intro ys h
    rw [List.mapM_cons] at h
    obtain ⟨b, hb, h⟩ := bind_ok_inv h
    obtain ⟨bs, hbs, h⟩ := bind_ok_inv h
    have := pure_ok_inv h
    subst this
    obtain ⟨hlen, hrev, hfwd⟩ := ih hbs
    refine ⟨by simp [hlen], ?_, ?_⟩
    · intro i y hy
      cases i with
      | zero =>
        simp at hy
        exact ⟨a, by simp, hy ▸ hb⟩
      | succ n =>
        simp at hy
        obtain ⟨x, hx, hfx⟩ := hrev n y hy
        exact ⟨x, by simpa using hx, hfx⟩
    · intro i x hx
      cases i with
      | zero =>
        simp at hx
        exact ⟨b, by simp, hx ▸ hb⟩
      | succ n =>
        simp at hx
        obtain ⟨y, hy, hfy⟩ := hfwd n x hx
        exact ⟨y, by simpa using hy, hfy⟩

theorem forM_first_error {f : Psbt → Except SdkError Unit} (pre post : List Psbt)
    (bad : Psbt) (e : SdkError)
    (hpre : ∀ p ∈ pre, f p = Except.ok ()) (hbad : f bad = Except.error e) :
    (pre ++ bad :: post).forM f = Except.error e := by
  induction pre with
  | nil => simp [List.forM_cons', hbad, Bind.bind, Except.bind]
  | cons a as ih =>
    have ha : f a = Except.ok () := hpre a (by simp)
    have hih := ih (fun p hp => hpre p (by simp [hp]))
    simp only [List.cons_append, List.forM_cons', ha, Bind.bind, Except.bind]
    exact hih

theorem stringifyOutpointContent_inj {a b : String}
    (h : stringifyOutpointContent a = stringifyOutpointContent b) : a = b := by
  unfold stringifyOutpointContent at h
  have hd := congrArg String.data h
  simp only [String.data_append] at hd
  have hdata := List.append_cancel_left (List.append_cancel_right hd)
  cases a
  cases b
  exact congrArg String.mk hdata

/-! Divergence of the fee loop in the constant-positive-funding
environment. -/

theorem buildIterationDiv (c : ℤ) :
    buildIteration envDiv selfDiv "u" [utxoW] c = Except.ok (respDiv c, 1, c + 1) := rfl

theorem convergeLoopDiv : ∀ (fuel : Nat) (c : ℤ),
    convergeLoop envDiv selfDiv "u" [utxoW] fuel c = Except.ok none
  | 0, _ => rfl
  | fuel + 1, c => by
    have h := buildIterationDiv c
    simp only [convergeLoop, h]
    rw [if_pos (by norm_num : (1 : ℤ) > 0)]
    exact convergeLoopDiv fuel (c + 1)

theorem buildTransactionsDiv (fuel : Nat) :
    buildTransactions envDiv selfDiv "u" fuel
      = convergeLoop envDiv selfDiv "u" [utxoW] fuel 600 := rfl

/-- C1 counterexample: in a concrete environment whose funding estimator is
the constant 1 (every validation succeeding), the build call is still inside
the fee loop after 500 iterations, and has not failed with any error — the
code has no iteration bound and no FeeConvergenceTimeout failure mode. -/
theorem c1_counterexample :
    buildTransactions envDiv selfDiv "u" 500 = Except.ok none :=
  (buildTransactionsDiv 500).trans (convergeLoopDiv 500 600)

/-- C1 (amended): the fee-convergence loop exits only when the recomputed
extra funding is ≤ 0; the code imposes no maximum iteration bound and
defines no FeeConvergenceTimeout error, so on an environment whose funding
estimate stays positive the loop runs forever (for every fuel allowance the
modelled loop is still running, never returning and never failing). -/
theorem c1_amended_theorem : ∀ fuel : Nat,
    buildTransactions envDiv selfDiv "u" fuel = Except.ok none := fun fuel =>
  (buildTransactionsDiv fuel).trans (convergeLoopDiv fuel 600)

/-- C5 counterexample: a seller PSBT with two inputs, whose first input is
valid, passes validation — the validator performs no single-input-per-PST
check, contradicting the claim that the batch fails otherwise. -/
theorem c5_counterexample :
    validateInscriptionPsbts envDiv "regtest" [psbtTwoInputs] = Except.ok ()
      ∧ psbtTwoInputs.inputs.length = 2 :=
  ⟨rfl, rfl⟩

/-- C5 (amended): the inscription validator checks, on the FIRST input only:
witness presence (error "invalid seller psbt" if missing), seller-address
derivability from the witness script, and that the index owns the outpoint
for the derived seller; a PSBT passes when its first input passes — the
input count is never checked. -/
theorem c5_amended_theorem (env : Env) (network : String) (psbt : Psbt) (i0 : PsbtInput)
    (h0 : psbt.inputs[0]? = some i0) :
    (i0.witnessUtxo = none →
      validateInscriptionPsbt env network psbt
        = Except.error (SdkError.msg "invalid seller psbt")) ∧
    (∀ w, i0.witnessUtxo = some w →
      (env.getScriptType w.script network).address = none →
      validateInscriptionPsbt env network psbt
        = Except.error (SdkError.msg "invalid seller address in psbt")) ∧
    (∀ w sa, i0.witnessUtxo = some w →
      (env.getScriptType w.script network).address = some sa →
      env.getInscriptions (outpointOf i0) ≠ [] →
      (env.getInscriptions (outpointOf i0)).any
          (fun insc => insc.outpoint == outpointOf i0 && insc.owner == sa) = false →
      validateInscriptionPsbt env network psbt
        = Except.error (SdkError.msg
            ("Inscription at " ++ outpointOf i0 ++ " does not match"))) ∧
    (∀ w sa, i0.witnessUtxo = some w →
      (env.getScriptType w.script network).address = some sa →
      (env.getInscriptions (outpointOf i0)).any
          (fun insc => insc.outpoint == outpointOf i0 && insc.owner == sa) = true →
      validateInscriptionPsbt env network psbt = Except.ok ()) := by
  refine ⟨?_, ?_, ?_, ?_⟩
  · intro hw
    simp [validateInscriptionPsbt, h0, hw]
  · intro w hw hsa
    simp [validateInscriptionPsbt, h0, hw, hsa]
  · intro w sa hw hsa hne hany
    have hni : (env.getInscriptions (outpointOf i0)).isEmpty = false := by
      cases hgi : env.getInscriptions (outpointOf i0) with
      | nil => exact absurd hgi hne
      | cons a as => rfl
    simp [validateInscriptionPsbt, h0, hw, hsa, hni, hany]
  · intro w sa hw hsa hany
    have hni : (env.getInscriptions (outpointOf i0)).isEmpty = false := by
      cases hgi : env.getInscriptions (outpointOf i0) with
      | nil => rw [hgi] at hany; simp at hany
      | cons a as => rfl
    simp [validateInscriptionPsbt, h0, hw, hsa, hni, hany]

/-- C5 witness: the amended characterization applied to a concrete valid
single-input seller PSBT. -/
theorem c5_witness :
    validateInscriptionPsbt envDiv "regtest" sellerPsbt1 = Except.ok () := by
  exact (c5_amended_theorem envDiv "regtest" sellerPsbt1
      { hash := "aa", index := 0,
        witnessUtxo := some { script := Script.raw [0], value := 600 },
        tapInternalKey := none, tapMerkleRoot := none,
        sighashType := none, redeemScript := none } rfl).2.2.2
    { script := Script.raw [0], value := 600 } "seller" rfl rfl (by decide)

/-- C6 counterexample: a legacy buyer address does fail, but the thrown
message is "must be a segwit/taproot/p2sh address" and does not contain the
claimed phrase "must be a segwit/taproot address". -/
theorem c6_counterexample :
    buildTransactions envLeg selfDiv "u" 1
        = Except.error (SdkError.msg
            "Buyer address buyeraddr must be a segwit/taproot/p2sh address")
      ∧ hasSubstring "must be a segwit/taproot address"
          "Buyer address buyeraddr must be a segwit/taproot/p2sh address" = false :=
  ⟨rfl, by decide⟩

/-- C6 (amended): if the buyer address classifies as legacy p2pkh,
`buildTransactions` fails with the message "Buyer address ... must be a
segwit/taproot/p2sh address"; the failure is independent of every other
environment component (in particular of the UTXO datasource, so it occurs
before any UTXO fetch). -/
theorem c6_amended_theorem (env : Env) (self : PreInscriber) (uniqueId : String) (fuel : Nat)
    (hne : self.inscriptionsPsbts.isEmpty = false)
    (hleg : env.getAddressType self.buyerAddress self.network = ScriptKind.p2pkh) :
    buildTransactions env self uniqueId fuel
      = Except.error (SdkError.msg
          ("Buyer address " ++ self.buyerAddress
            ++ " must be a segwit/taproot/p2sh address")) := by
  simp [buildTransactions, hne, hleg]

/-- C6 witness: the amended theorem applied at a concrete legacy-classified
environment. -/
theorem c6_witness :
    buildTransactions envLeg selfDiv "u" 3
      = Except.error (SdkError.msg
          ("Buyer address " ++ "buyeraddr" ++ " must be a segwit/taproot/p2sh address")) :=
  c6_amended_theorem envLeg selfDiv "u" 3 rfl rfl

/-- C9: the output-chaining helper dispatches on the referenced output's
script type: taproot yields a descriptor carrying the x-only internal key
plus witness value/script, native segwit v0 pubkey-hash yields a plain
witness descriptor, and every other script family fails with the
unsupported-script error. -/
theorem c9_theorem (env : Env) (network : String) (psbt : Psbt) (outputIndex : Nat)
    (publicKey : String) (sighashType : Option Nat) (out : TxOutput)
    (hout : psbt.outputs[outputIndex]? = some out) :
    ((env.getScriptType out.script network).kind = ScriptKind.p2tr →
      generateInputFromPSBTOutput env network psbt outputIndex publicKey sighashType
        = Except.ok
            { hash := env.txIdOf psbt, index := outputIndex,
              tapInternalKey := some (env.toXOnly publicKey),
              witnessUtxo := some { script := out.script, value := out.value },
              tapMerkleRoot := none, sighashType := sighashFilter sighashType,
              redeemScript := none }) ∧
    ((env.getScriptType out.script network).kind = ScriptKind.p2wpkh →
      generateInputFromPSBTOutput env network psbt outputIndex publicKey sighashType
        = Except.ok
            { hash := env.txIdOf psbt, index := outputIndex,
              tapInternalKey := none,
              witnessUtxo := some { script := out.script, value := out.value },
              tapMerkleRoot := none, sighashType := sighashFilter sighashType,
              redeemScript := none }) ∧
    ((env.getScriptType out.script network).kind ≠ ScriptKind.p2tr →
      (env.getScriptType out.script network).kind ≠ ScriptKind.p2wpkh →
      generateInputFromPSBTOutput env network psbt outputIndex publicKey sighashType
        = Except.error
            (SdkError.msg "scripts other than p2tr and p2wpkh are not supported!")) := by
  refine ⟨?_, ?_, ?_⟩
  · intro hk
    simp [generateInputFromPSBTOutput, hout, hk]
  · intro hk
    simp [generateInputFromPSBTOutput, hout, hk]
  · intro h1 h2
    cases hk : (env.getScriptType out.script network).kind with
    | p2pkh => simp [generateInputFromPSBTOutput, hout, hk]
    | p2sh => simp [generateInputFromPSBTOutput, hout, hk]
    | p2wsh => simp [generateInputFromPSBTOutput, hout, hk]
    | p2wpkh => exact absurd hk h2
    | p2tr => exact absurd hk h1
    | unknown => simp [generateInputFromPSBTOutput, hout, hk]

/-- C9 witness: the dispatch theorem applied at a concrete p2wpkh-classified
output. -/
theorem c9_witness :
    generateInputFromPSBTOutput envDiv "regtest" sellerPsbt1 0 "bpk" (some SIGHASH_ALL)
      = Except.ok
          { hash := "t0", index := 0, tapInternalKey := none,
            witnessUtxo := some { script := Script.raw [1], value := 600 },
            tapMerkleRoot := none, sighashType := some SIGHASH_ALL,
            redeemScript := none } := by
  exact (c9_theorem envDiv "regtest" sellerPsbt1 0 "bpk" (some SIGHASH_ALL)
    { script := Script.raw [1], value := 600 } rfl).2.1 rfl

/-! Escrow-address derivation: inversion and the purity/injectivity claim. -/

theorem getEscrowTaprootAddress_ok_inv (env : Env) (o key net ch : String)
    (r : EscrowResponse)
    (h : getEscrowTaprootAddress env o key net ch = Except.ok r) :
    (escrowPaymentOfContent env key net ch (stringifyOutpointContent o)).address
      = some r.address := by
  have h' : (match
      (escrowPaymentOfContent env key net ch (stringifyOutpointContent o)).address,
      (escrowPaymentOfContent env key net ch (stringifyOutpointContent o)).hash with
    | some a, some hh => Except.ok ({ address := a, merkleHash := hh } : EscrowResponse)
    | _, _ => Except.error (SdkError.msg "Error while creating escrow address"))
      = Except.ok r := h
  cases hpa : (escrowPaymentOfContent env key net ch (stringifyOutpointContent o)).address with
  | none =>
    rw [hpa] at h'
    simp at h'
  | some a =>
    cases hph : (escrowPaymentOfContent env key net ch (stringifyOutpointContent o)).hash with
    | none =>
      rw [hpa, hph] at h'
      simp at h'
    | some hh =>
      rw [hpa, hph] at h'
      simp at h'
      rw [← h']

/-- C4: `getEscrowTaprootAddress` is a pure function of its four arguments
(determinism holds by congruence in the embedding, reflecting that the
static source method reads no mutable state), and — under the
collision-freeness idealization that the external taproot payment
derivation assigns distinct addresses to distinct data-leaf envelope
contents for a fixed key, redeem leaf and network — two calls with distinct
inscription outpoints return distinct addresses. -/
theorem c4_theorem (env : Env) (escrowPublicKey network chain o1 o2 : String)
    (r1 r2 : EscrowResponse)
    (hinj : ∀ c1 c2 a,
      (escrowPaymentOfContent env escrowPublicKey network chain c1).address = some a →
      (escrowPaymentOfContent env escrowPublicKey network chain c2).address = some a →
      c1 = c2)
    (h1 : getEscrowTaprootAddress env o1 escrowPublicKey network chain = Except.ok r1)
    (h2 : getEscrowTaprootAddress env o2 escrowPublicKey network chain = Except.ok r2)
    (hne : o1 ≠ o2) :
    (∀ p1 p2 p3 p4 q1 q2 q3 q4 : String, p1 = q1 → p2 = q2 → p3 = q3 → p4 = q4 →
      getEscrowTaprootAddress env p1 p2 p3 p4 = getEscrowTaprootAddress env q1 q2 q3 q4) ∧
    r1.address ≠ r2.address := by
  constructor
  · intro p1 p2 p3 p4 q1 q2 q3 q4 e1 e2 e3 e4
    rw [e1, e2, e3, e4]
  · have i1 := getEscrowTaprootAddress_ok_inv env o1 escrowPublicKey network chain r1 h1
    have i2 := getEscrowTaprootAddress_ok_inv env o2 escrowPublicKey network chain r2 h2
    intro hEq
    rw [hEq] at i1
    exact hne (stringifyOutpointContent_inj
      (hinj (stringifyOutpointContent o1) (stringifyOutpointContent o2) r2.address i1 i2))

/-- C4 witness: the injectivity idealization is satisfied by the concrete
environment whose payment derivation exposes the envelope content, and two
distinct outpoints there produce distinct addresses. -/
theorem c4_witness :
    ({ address := stringifyOutpointContent "a:0", merkleHash := "h" } : EscrowResponse).address
      ≠ ({ address := stringifyOutpointContent "b:0", merkleHash := "h" } : EscrowResponse).address := by
  refine (c4_theorem envW4 "ek" "regtest" "bitcoin" "a:0" "b:0" _ _ ?_ rfl rfl (by decide)).2
  intro c1 c2 a ha1 ha2
  simp [escrowPaymentOfContent, envW4, envDiv, buildWitnessScriptV2, leafContent] at ha1 ha2
  rw [ha1, ha2]

/-- C3: if some seller PST's outpoint has no record in the inscription
index (all PSTs before it validating, the offending PST passing the earlier
witness/address checks, and the buyer address passing its check), then
`buildTransactions` fails with the inscription-not-found error. The
environment is otherwise arbitrary — in particular `coinSelect`, `funding`,
`p2trPayment`, and `getUnspents` are unconstrained — so the failure occurs
before any transaction is built and before the buyer's UTXOs are consulted,
and no PST triple is returned. -/
theorem c3_theorem (env : Env) (self : PreInscriber) (uniqueId : String) (fuel : Nat)
    (pre post : List Psbt) (bad : Psbt) (i0 : PsbtInput) (w : WitnessUtxo) (sa : String)
    (hps : self.inscriptionsPsbts = pre ++ bad :: post)
    (hbat : ¬(env.getAddressType self.buyerAddress self.network ≠ ScriptKind.p2sh
        ∧ env.getAddressType self.buyerAddress self.network ≠ ScriptKind.p2wsh
        ∧ env.getAddressType self.buyerAddress self.network ≠ ScriptKind.p2wpkh
        ∧ env.getAddressType self.buyerAddress self.network ≠ ScriptKind.p2tr))
    (hpre : ∀ p ∈ pre, validateInscriptionPsbt env self.network p = Except.ok ())
    (h0 : bad.inputs[0]? = some i0)
    (hw : i0.witnessUtxo = some w)
    (hsa : (env.getScriptType w.script self.network).address = some sa)
    (hmiss : env.getInscriptions (outpointOf i0) = []) :
    buildTransactions env self uniqueId fuel
      = Except.error (SdkError.msg ("Inscription at " ++ outpointOf i0 ++ " not found")) := by
  have hbad : validateInscriptionPsbt env self.network bad
      = Except.error (SdkError.msg ("Inscription at " ++ outpointOf i0 ++ " not found")) := by
    simp [validateInscriptionPsbt, h0, hw, hsa, hmiss]
  have hv : validateInscriptionPsbts env self.network self.inscriptionsPsbts
      = Except.error (SdkError.msg ("Inscription at " ++ outpointOf i0 ++ " not found")) := by
    rw [hps]
    exact forM_first_error pre post bad _ hpre hbad
  have hne : self.inscriptionsPsbts.isEmpty = false := by
    rw [hps]
    cases pre <;> rfl
  unfold buildTransactions
  rw [hne]
  simp only [Bool.false_eq_true, if_false]
  rw [if_neg hbat, hv]

/-- C3 witness: a concrete environment with an empty inscription index. -/
theorem c3_witness :
    buildTransactions envC3 selfDiv "u" 4
      = Except.error (SdkError.msg ("Inscription at " ++ "aa:0" ++ " not found")) := by
  exact c3_theorem envC3 selfDiv "u" 4 [] [] sellerPsbt1
    { hash := "aa", index := 0,
      witnessUtxo := some { script := Script.raw [0], value := 600 },
      tapInternalKey := none, tapMerkleRoot := none,
      sighashType := none, redeemScript := none }
    { script := Script.raw [0], value := 600 } "seller"
    rfl (by decide) (by intro p hp; simp at hp) rfl rfl rfl rfl

/-! Inversion of the chaining helpers, and the second-transaction frame
claim. -/

theorem generateInput_ok_inv (env : Env) (network : String) (psbt : Psbt) (i : Nat)
    (pk : String) (sh : Option Nat) (inp : PsbtInput)
    (h : generateInputFromPSBTOutput env network psbt i pk sh = Except.ok inp) :
    ∃ out, psbt.outputs[i]? = some out
      ∧ inp.witnessUtxo = some { script := out.script, value := out.value }
      ∧ inp.index = i ∧ inp.sighashType = sighashFilter sh := by
  unfold generateInputFromPSBTOutput at h
  cases hout : psbt.outputs[i]? with
  | none =>
    rw [hout] at h
    simp at h
  | some out =>
    rw [hout] at h
    dsimp only at h
    refine ⟨out, rfl, ?_⟩
    cases hk : (env.getScriptType out.script network).kind with
    | p2tr =>
      rw [hk] at h
      simp at h
      rw [← h]
      exact ⟨rfl, rfl, rfl⟩
    | p2wpkh =>
      rw [hk] at h
      simp at h
      rw [← h]
      exact ⟨rfl, rfl, rfl⟩
    | p2pkh =>
      rw [hk] at h
      simp at h
    | p2sh =>
      rw [hk] at h
      simp at h
    | p2wsh =>
      rw [hk] at h
      simp at h
    | unknown =>
      rw [hk] at h
      simp at h

theorem createSecondTransaction_ok_inv (env : Env) (self : PreInscriber)
    (commitPayment : Payment) (firstTxId : String) (firstPsbt inscriptionPsbt s : Psbt)
    (outputIndex : Nat)
    (h : createSecondTransaction env self commitPayment firstTxId firstPsbt outputIndex
        inscriptionPsbt = Except.ok s) :
    ∃ base hh,
      generateInputFromPSBTOutput env self.network firstPsbt outputIndex
        self.buyerPublicKey (some SIGHASH_ALL) = Except.ok base ∧
      commitPayment.hash = some hh ∧
      s = { inscriptionPsbt with
            inputs := inscriptionPsbt.inputs
              ++ [{ base with hash := firstTxId, tapMerkleRoot := some hh }] } := by
  unfold createSecondTransaction at h
  cases hg : generateInputFromPSBTOutput env self.network firstPsbt outputIndex
      self.buyerPublicKey (some SIGHASH_ALL) with
  | error e =>
    rw [hg] at h
    simp at h
  | ok base =>
    rw [hg] at h
    cases hh : commitPayment.hash with
    | none =>
      rw [hh] at h
      simp at h
    | some hval =>
      rw [hh] at h
      simp at h
      exact ⟨base, hval, rfl, rfl, h.symm⟩

/-- C8: a successful `createSecondTransaction` appends the chaining input
derived from the first transaction's output at the given index — with
SIGHASH_ALL and the buyer commitment's taproot merkle root attached — after
the seller PST's existing inputs (which stay in place, the seller's first),
and leaves the seller PST's outputs exactly unchanged. -/
theorem c8_theorem (env : Env) (self : PreInscriber) (commitPayment : Payment)
    (firstTxId : String) (firstPsbt sellerPsbt s : Psbt) (i : Nat)
    (h : createSecondTransaction env self commitPayment firstTxId firstPsbt i sellerPsbt
        = Except.ok s) :
    ∃ base hh,
      generateInputFromPSBTOutput env self.network firstPsbt i self.buyerPublicKey
        (some SIGHASH_ALL) = Except.ok base ∧
      commitPayment.hash = some hh ∧
      s.inputs = sellerPsbt.inputs
        ++ [{ base with hash := firstTxId, tapMerkleRoot := some hh }] ∧
      s.outputs = sellerPsbt.outputs ∧
      ({ base with hash := firstTxId, tapMerkleRoot := some hh } : PsbtInput).sighashType
        = some SIGHASH_ALL := by
  obtain ⟨base, hh, hg, hch, hs⟩ :=
    createSecondTransaction_ok_inv env self commitPayment firstTxId firstPsbt sellerPsbt s i h
  obtain ⟨out, hout, hwit, hidx, hsig⟩ :=
    generateInput_ok_inv env self.network firstPsbt i self.buyerPublicKey
      (some SIGHASH_ALL) base hg
  subst hs
  refine ⟨base, hh, hg, hch, rfl, rfl, ?_⟩
  show base.sighashType = some SIGHASH_ALL
  rw [hsig]
  rfl

/-- C8 witness: the frame theorem applied at a concrete chained build. -/
theorem c8_witness : secondW.outputs = sellerPsbt2.outputs := by
  obtain ⟨base, hh, hg, hch, hin, hout, hsig⟩ :=
    c8_theorem envDiv selfDiv payW "t1" sellerPsbt1 sellerPsbt2 secondW 0 rfl
  exact hout

/-! Coin-selection bookkeeping: the re-find step recovers the selected
candidate itself when the candidate keys are distinct, and the built PSBT's
sums coincide with the selection's sums. -/

theorem find?_key_nodup : ∀ (l : List CSInput) (sel : CSInput),
    (l.map (fun i => (i.txid, i.vout))).Nodup → sel ∈ l →
    l.find? (fun i => i.txid == sel.txid && i.vout == sel.vout) = some sel := by
  intro l
  induction l with
  | nil => intro sel _ hmem; simp at hmem
  | cons a as ih =>
    intro sel hnd hmem
    obtain ⟨hnotmem, hnd'⟩ := List.nodup_cons.mp hnd
    rcases List.mem_cons.mp hmem with heq | hmem'
    · subst heq
      rw [List.find?_cons_of_pos]
      simp
    · have hpred : (a.txid == sel.txid && a.vout == sel.vout) = false := by
        by_contra hcon
        have hpt : (a.txid == sel.txid && a.vout == sel.vout) = true := by
          cases hp : (a.txid == sel.txid && a.vout == sel.vout)
          · exact absurd hp hcon
          · rfl
        simp at hpt
        have hkey : (fun i => (i.txid, i.vout)) a = (fun i => (i.txid, i.vout)) sel := by
          simp [hpt.1, hpt.2]
        exact hnotmem
          (hkey ▸ List.mem_map_of_mem (fun i => (i.txid, i.vout)) hmem')
      rw [List.find?_cons_of_neg]
      · exact ih sel hnd' hmem'
      · simp [hpred]

theorem selection_inputs_sum (inputs : List CSInput)
    (hnd : (inputs.map (fun i => (i.txid, i.vout))).Nodup)
    (hval : ∀ i ∈ inputs, inputWitnessValue i.base = i.value) :
    ∀ (sels : List CSInput) (ys : List PsbtInput),
      (∀ s ∈ sels, s ∈ inputs) →
      sels.mapM (selectionToPsbtInput inputs) = Except.ok ys →
      (ys.map inputWitnessValue).sum = (sels.map CSInput.value).sum := by
  intro sels
  induction sels with
  | nil =>
    intro ys _ h
    rw [List.mapM_nil] at h
    have := pure_ok_inv h
    subst this
    simp
  | cons s ss ih =>
    intro ys hsub h
    rw [List.mapM_cons] at h
    obtain ⟨y, hy, h⟩ := bind_ok_inv h
    obtain ⟨ys', hys, h⟩ := bind_ok_inv h
    have := pure_ok_inv h
    subst this
    have hmem : s ∈ inputs := hsub s (by simp)
    have hfind := find?_key_nodup inputs s hnd hmem
    unfold selectionToPsbtInput at hy
    rw [hfind] at hy
    simp at hy
    have hyval : inputWitnessValue y = s.value := by
      rw [← hy]
      exact hval s hmem
    simp only [List.map_cons, List.sum_cons, hyval,
      ih ys' (fun x hx => hsub x (by simp [hx])) hys]

theorem selection_outputs_sum (env : Env) (self : PreInscriber) :
    ∀ (csOuts : List CSOutput) (ys : List TxOutput),
      csOuts.mapM (csOutputToTxOutput env self) = Except.ok ys →
      (ys.map TxOutput.value).sum = (csOuts.filterMap CSOutput.value).sum := by
  intro csOuts
  induction csOuts with
  | nil =>
    intro ys h
    rw [List.mapM_nil] at h
    have := pure_ok_inv h
    subst this
    simp
  | cons o os ih =>
    intro ys h
    rw [List.mapM_cons] at h
    obtain ⟨y, hy, h⟩ := bind_ok_inv h
    obtain ⟨ys', hys, h⟩ := bind_ok_inv h
    have := pure_ok_inv h
    subst this
    unfold csOutputToTxOutput at hy
    cases hov : o.value with
    | none => rw [hov] at hy; simp at hy
    | some v =>
      rw [hov] at hy
      simp at hy
      have : y.value = v := by rw [← hy]
      simp [List.filterMap_cons, hov, this, ih ys' hys]

theorem createFirstTransaction_ok_inv (env : Env) (self : PreInscriber)
    (buyerUtxos : List UTXO) (outs : List Output) (p : Psbt) (txid : String)
    (h : createFirstTransaction env self buyerUtxos outs = Except.ok (p, txid)) :
    (env.coinSelect (buyerUtxos.map (mkSelectionInput env self)) outs BASE_FEERATE
        self.buyerAddress).outputs ≠ [] ∧
    (env.coinSelect (buyerUtxos.map (mkSelectionInput env self)) outs BASE_FEERATE
        self.buyerAddress).inputs.mapM
      (selectionToPsbtInput (buyerUtxos.map (mkSelectionInput env self)))
        = Except.ok p.inputs ∧
    (env.coinSelect (buyerUtxos.map (mkSelectionInput env self)) outs BASE_FEERATE
        self.buyerAddress).outputs.mapM (csOutputToTxOutput env self)
        = Except.ok p.outputs := by
  unfold createFirstTransaction at h
  dsimp only at h
  split at h
  · simp at h
  rename_i hinsne
  split at h
  · simp at h
  rename_i houtsne
  split at h
  · simp at h
  rename_i psbtInputs hmapins
  split at h
  · simp at h
  rename_i psbtOutputs hmapouts
  simp at h
  refine ⟨?_, ?_, ?_⟩
  · intro hnil
    exact houtsne (by rw [hnil]; rfl)
  · rw [← h.1]
    exact hmapins
  · rw [← h.1]
    exact hmapouts

theorem getBuyerUtxos_ok_inv (env : Env) (self : PreInscriber) (utxos : List UTXO)
    (h : getBuyerUtxos env self = Except.ok utxos) :
    utxos = env.getUnspents self.buyerAddress ∨ utxos = [] := by
  unfold getBuyerUtxos at h
  dsimp only at h
  split at h
  · split at h
    · simp at h
    · simp at h
      exact Or.inl h.symm
  · simp at h
    exact Or.inr h

theorem mkCommitFundingOutput_ok_inv (env : Env) (self : PreInscriber)
    (addr : String) (pay : Payment) (psbt : Psbt) (out : Output)
    (h : mkCommitFundingOutput env self addr pay psbt = Except.ok out) :
    ∃ commitScript commitHash,
      pay.output = some commitScript ∧ pay.hash = some commitHash ∧
      out = { address := addr,
              value := calculateFundingAmount env
                { psbt with inputs := psbt.inputs
                    ++ [dummyCommitInput env self commitScript commitHash 600] }
                BASE_FEERATE + 600 } := by
  unfold mkCommitFundingOutput at h
  dsimp only at h
  cases ho : pay.output with
  | none =>
    rw [ho] at h
    simp at h
  | some cs =>
    rw [ho] at h
    cases hh : pay.hash with
    | none =>
      rw [hh] at h
      simp at h
    | some ch =>
      rw [hh] at h
      simp at h
      exact ⟨cs, ch, rfl, rfl, h.symm⟩

theorem createWithdrawTransaction_ok_counts (env : Env) (self : PreInscriber)
    (pay : Payment) (ftxid : String) (firstPsbt : Psbt) (idx : Nat)
    (seconds : List Psbt) (third : Psbt)
    (h : createWithdrawTransaction env self pay ftxid firstPsbt idx seconds
        = Except.ok third) :
    third.inputs.length = seconds.length + 1 ∧
    third.outputs.length = seconds.length + self.extraOutputs.length := by
  unfold createWithdrawTransaction at h
  split at h
  · simp at h
  rename_i inputs h1
  split at h
  · simp at h
  rename_i chained h2
  split at h
  · simp at h
  rename_i fundingBase h3
  split at h
  · simp at h
  rename_i hval h4
  simp at h
  have l1 := (mapM_ok_inv h1).1
  have l2 := (mapM_ok_inv h2).1
  rw [← h]
  constructor
  · simp [l1, l2]
  · simp [l1, l2]

theorem buildIteration_ok_inv (env : Env) (self : PreInscriber) (uniqueId : String)
    (buyerUtxos : List UTXO) (c : ℤ) (r : BuildResponse) (e n : ℤ)
    (h : buildIteration env self uniqueId buyerUtxos c = Except.ok (r, e, n)) :
    ∃ addr pay commitOuts firstTxId rate,
      getBuyerCommitAddress env self uniqueId = Except.ok (addr, pay) ∧
      self.inscriptionsPsbts.mapM (mkCommitFundingOutput env self addr pay)
        = Except.ok commitOuts ∧
      createFirstTransaction env self buyerUtxos
          (commitOuts ++ [({ address := addr, value := c } : Output)])
        = Except.ok (r.firstTransactionPSBT, firstTxId) ∧
      self.inscriptionsPsbts.enum.mapM (fun pr =>
          createSecondTransaction env self pay firstTxId r.firstTransactionPSBT pr.1 pr.2)
        = Except.ok r.secondTransactionPSBTs ∧
      createWithdrawTransaction env self pay firstTxId r.firstTransactionPSBT
          ((commitOuts ++ [({ address := addr, value := c } : Output)]).length - 1)
          r.secondTransactionPSBTs
        = Except.ok r.thirdTransactionPSBT ∧
      e = calculateFundingAmount env r.thirdTransactionPSBT rate := by
  unfold buildIteration at h
  split at h
  · simp at h
  rename_i addr pay hca
  split at h
  · simp at h
  rename_i commitOuts hmap
  split at h
  · simp at h
  rename_i firstPsbt firstTxId hcf
  split at h
  · simp at h
  rename_i seconds hsec
  split at h
  · simp at h
  rename_i third hwd
  simp at h
  obtain ⟨hr, he, hn⟩ := h
  subst hr
  exact ⟨addr, pay, commitOuts, firstTxId, _, hca, hmap, hcf, hsec, hwd, he.symm⟩

theorem convergeLoop_ok_inv (env : Env) (self : PreInscriber) (uniqueId : String)
    (buyerUtxos : List UTXO) :
    ∀ (fuel : Nat) (c : ℤ) (r : BuildResponse),
      convergeLoop env self uniqueId buyerUtxos fuel c = Except.ok (some r) →
      ∃ c' e n, buildIteration env self uniqueId buyerUtxos c' = Except.ok (r, e, n)
        ∧ e ≤ 0
  | 0, c, r => by
    intro h
    simp [convergeLoop] at h
  | fuel + 1, c, r => by
    intro h
    rw [convergeLoop] at h
    cases hb : buildIteration env self uniqueId buyerUtxos c with
    | error e =>
      rw [hb] at h
      simp at h
    | ok t =>
      obtain ⟨res, extra, newc⟩ := t
      rw [hb] at h
      dsimp only at h
      by_cases hgt : extra > 0
      · rw [if_pos hgt] at h
        exact convergeLoop_ok_inv env self uniqueId buyerUtxos fuel newc r h
      · rw [if_neg hgt] at h
        simp at h
        subst h
        exact ⟨c, extra, newc, hb, le_of_not_lt hgt⟩

theorem buildTransactions_ok_inv (env : Env) (self : PreInscriber) (uniqueId : String)
    (fuel : Nat) (r : BuildResponse)
    (h : buildTransactions env self uniqueId fuel = Except.ok (some r)) :
    ∃ buyerUtxos c' e n,
      getBuyerUtxos env self = Except.ok buyerUtxos ∧
      buildIteration env self uniqueId buyerUtxos c' = Except.ok (r, e, n) ∧ e ≤ 0 := by
  unfold buildTransactions at h
  split at h
  · simp at h
  dsimp only at h
  split at h
  · simp at h
  split at h
  · simp at h
  rename_i u hvalid
  split at h
  · simp at h
  rename_i buyerUtxos hbu
  obtain ⟨c', e, n, hi, hle⟩ :=
    convergeLoop_ok_inv env self uniqueId buyerUtxos fuel 600 r h
  exact ⟨buyerUtxos, c', e, n, hbu, hi, hle⟩

theorem feeInput_values_map (env : Env) (net : String) (l : List PsbtInput) :
    (l.map (feeInputOf env net)).map FeeInput.value = l.map inputWitnessValue := by
  rw [List.map_map]
  rfl

theorem createFirstTransaction_fee (env : Env) (self : PreInscriber)
    (utxos : List UTXO) (outs : List Output) (p : Psbt) (txid : String)
    (hnd : (utxos.map (fun u => (u.txid, u.n))).Nodup)
    (hproc : ∀ u : UTXO,
      inputWitnessValue (env.processInput u self.buyerPublicKey self.network) = u.sats)
    (hsub : ∀ sel ∈ (env.coinSelect (utxos.map (mkSelectionInput env self)) outs
        BASE_FEERATE self.buyerAddress).inputs, sel ∈ utxos.map (mkSelectionInput env self))
    (hcov : ((env.coinSelect (utxos.map (mkSelectionInput env self)) outs BASE_FEERATE
          self.buyerAddress).outputs.filterMap CSOutput.value).sum
        ≤ ((env.coinSelect (utxos.map (mkSelectionInput env self)) outs BASE_FEERATE
          self.buyerAddress).inputs.map CSInput.value).sum)
    (h : createFirstTransaction env self utxos outs = Except.ok (p, txid)) :
    0 ≤ getTotalFees p := by
  obtain ⟨hne, hins, houts⟩ := createFirstTransaction_ok_inv env self utxos outs p txid h
  have hkeys : ((utxos.map (mkSelectionInput env self)).map
      (fun i => (i.txid, i.vout))).Nodup := by
    rw [List.map_map]
    exact hnd
  have hval : ∀ i ∈ utxos.map (mkSelectionInput env self),
      inputWitnessValue i.base = i.value := by
    intro i hi
    obtain ⟨u, hu, rfl⟩ := List.mem_map.mp hi
    exact hproc u
  have hsum1 := selection_inputs_sum (utxos.map (mkSelectionInput env self)) hkeys hval
    _ _ hsub hins
  have hsum2 := selection_outputs_sum env self _ _ houts
  unfold getTotalFees
  rw [hsum1, hsum2]
  linarith [hcov]

/-- C10: in every successful build, each per-inscription commitment-funding
output of the first transaction (the coin-selection library preserving the
requested outputs as a prefix) has value equal to the funding amount
estimated at the fixed BASE_FEERATE of 2 for the seller PSBT augmented with
one dummy taproot input, plus a fixed 600-satoshi dummy pad — i.e. it
exceeds the estimated second-transaction funding requirement by exactly
600 satoshis. -/
theorem c10_theorem (env : Env) (self : PreInscriber) (uniqueId : String) (fuel : Nat)
    (r : BuildResponse) (i : Nat) (psbt : Psbt)
    (hord : ∀ (ins : List CSInput) (outs : List Output) (fr : ℚ) (a : String),
      (env.coinSelect ins outs fr a).outputs ≠ [] →
      ∃ rest, (env.coinSelect ins outs fr a).outputs
        = outs.map (fun o => ({ address := some o.address, value := some o.value } : CSOutput))
          ++ rest)
    (h : buildTransactions env self uniqueId fuel = Except.ok (some r))
    (hp : self.inscriptionsPsbts[i]? = some psbt) :
    ∃ addr pay commitScript commitHash out,
      getBuyerCommitAddress env self uniqueId = Except.ok (addr, pay) ∧
      pay.output = some commitScript ∧ pay.hash = some commitHash ∧
      r.firstTransactionPSBT.outputs[i]? = some out ∧
      out.value = calculateFundingAmount env
        { psbt with inputs := psbt.inputs
            ++ [dummyCommitInput env self commitScript commitHash 600] }
        BASE_FEERATE + 600 := by
  obtain ⟨utxos, c, e, n, hbu, hit, hle⟩ :=
    buildTransactions_ok_inv env self uniqueId fuel r h
  obtain ⟨addr, pay, commitOuts, ftxid, rate, hca, hmap, hcf, hsec, hwd, herate⟩ :=
    buildIteration_ok_inv env self uniqueId utxos c r e n hit
  obtain ⟨hclen, hcrev, hcfwd⟩ := mapM_ok_inv hmap
  obtain ⟨out_i, houti, hmk⟩ := hcfwd i psbt hp
  obtain ⟨cs, ch, hcs, hch, hval⟩ :=
    mkCommitFundingOutput_ok_inv env self addr pay psbt out_i hmk
  obtain ⟨hresne, hins, houts⟩ := createFirstTransaction_ok_inv env self utxos _ _ _ hcf
  obtain ⟨rest, hres⟩ := hord _ _ _ _ hresne
  have hii : i < commitOuts.length := by
    rw [hclen]
    exact (List.getElem?_eq_some.mp hp).1
  have hreq : (commitOuts ++ [({ address := addr, value := c } : Output)])[i]?
      = some out_i := by
    rw [List.getElem?_append_left hii]
    exact houti
  have hcsout : (env.coinSelect (utxos.map (mkSelectionInput env self))
      (commitOuts ++ [({ address := addr, value := c } : Output)]) BASE_FEERATE
      self.buyerAddress).outputs[i]?
      = some ({ address := some out_i.address, value := some out_i.value } : CSOutput) := by
    rw [hres, List.getElem?_append_left, List.getElem?_map, hreq]
    · rfl
    · rw [List.length_map, List.length_append]
      omega
  obtain ⟨y, hy, hgy⟩ := (mapM_ok_inv houts).2.2 i _ hcsout
  refine ⟨addr, pay, cs, ch, y, hca, hcs, hch, hy, ?_⟩
  unfold csOutputToTxOutput at hgy
  simp at hgy
  have hyval : y.value = out_i.value := by rw [← hgy]
  rw [hyval, hval]

/-! The deficit-funded concrete environment satisfies the library
contracts. -/

theorem filterMap_csoutput_values (outs : List Output) :
    (outs.map (fun o =>
        ({ address := some o.address, value := some o.value } : CSOutput))).filterMap
      CSOutput.value = outs.map Output.value := by
  induction outs with
  | nil => rfl
  | cons a t ih => simp [List.filterMap_cons, ih]

theorem envW7_funding_contract (ins : List FeeInput) (outs : List TxOutput) (fr : ℚ) :
    (outs.map TxOutput.value).sum - (ins.map FeeInput.value).sum
      ≤ envW7.funding ins outs fr :=
  le_refl _

theorem envW7_coinSelect_sub (ins : List CSInput) (outs : List Output) (fr : ℚ)
    (a : String) : ∀ sel ∈ (envW7.coinSelect ins outs fr a).inputs, sel ∈ ins := by
  intro sel hsel
  by_cases hc : (outs.map Output.value).sum ≤ (ins.map CSInput.value).sum
  · simpa [envW7, envDiv, hc] using hsel
  · simp [envW7, envDiv, hc] at hsel

theorem envW7_coinSelect_cov (ins : List CSInput) (outs : List Output) (fr : ℚ)
    (a : String) :
    ((envW7.coinSelect ins outs fr a).outputs.filterMap CSOutput.value).sum
      ≤ ((envW7.coinSelect ins outs fr a).inputs.map CSInput.value).sum := by
  by_cases hc : (outs.map Output.value).sum ≤ (ins.map CSInput.value).sum
  · simp only [envW7, envDiv, hc, if_true]
    rw [filterMap_csoutput_values]
    exact hc
  · simp [envW7, envDiv, hc]

theorem envW7_coinSelect_ord (ins : List CSInput) (outs : List Output) (fr : ℚ)
    (a : String) (hne : (envW7.coinSelect ins outs fr a).outputs ≠ []) :
    ∃ rest, (envW7.coinSelect ins outs fr a).outputs
      = outs.map (fun o =>
          ({ address := some o.address, value := some o.value } : CSOutput)) ++ rest := by
  by_cases hc : (outs.map Output.value).sum ≤ (ins.map CSInput.value).sum
  · exact ⟨[], by simp [envW7, envDiv, hc]⟩
  · exact absurd (by simp [envW7, envDiv, hc]) hne

/-- C10 witness: the commitment-funding output value theorem applied to the
concrete convergent run (the first output of the first transaction funds the
first seller PSBT's estimated requirement plus exactly 600). -/
theorem c10_witness :
    (respW7.firstTransactionPSBT.outputs[0]?).map TxOutput.value
      = some (calculateFundingAmount envW7
          { sellerPsbt1 with inputs := sellerPsbt1.inputs
              ++ [dummyCommitInput envW7 selfDiv (Script.raw [7]) "commithash" 600] }
          BASE_FEERATE + 600) := by
  obtain ⟨addr, pay, cs, ch, out, hca, hcs, hch, hout, hval⟩ :=
    c10_theorem envW7 selfDiv "u" 3 respW7 0 sellerPsbt1
      envW7_coinSelect_ord rfl rfl
  have hpay : getBuyerCommitAddress envW7 selfDiv "u"
      = Except.ok ("commitaddr",
        ({ address := some "commitaddr", hash := some "commithash",
           output := some (Script.raw [7]) } : Payment)) := rfl
  rw [hpay] at hca
  simp at hca
  rw [← hca.2] at hcs hch
  simp at hcs hch
  have hmap : Option.map TxOutput.value (some out) = some out.value := rfl
  rw [hout, hmap]
  congr 1

/-- C2 (Scenario D): with two single-input seller PSTs, effective fee rate
8, sufficient buyer funds (a successful build), and the coin-selection
library returning exactly the requested outputs (no change), the first
transaction has exactly 3 outputs (2 commitment-funding + 1 CPFP-funding),
each of the 2 second transactions has exactly 2 inputs, and the third
transaction has 3 inputs (2 escrow + 1 CPFP-funding) and as many outputs as
escrow inputs plus configured extra outputs. -/
theorem c2_theorem (env : Env) (self : PreInscriber) (uniqueId : String) (fuel : Nat)
    (r : BuildResponse) (p1 p2 : Psbt)
    (hsel : ∀ (ins : List CSInput) (outs : List Output) (fr : ℚ) (a : String),
      (env.coinSelect ins outs fr a).outputs
        = outs.map (fun o =>
            ({ address := some o.address, value := some o.value } : CSOutput)))
    (hps : self.inscriptionsPsbts = [p1, p2])
    (h1 : p1.inputs.length = 1) (h2 : p2.inputs.length = 1)
    (hfee : self.effectiveFeeRate = 8)
    (h : buildTransactions env self uniqueId fuel = Except.ok (some r)) :
    r.firstTransactionPSBT.outputs.length = 3 ∧
    r.secondTransactionPSBTs.map (fun s => s.inputs.length) = [2, 2] ∧
    r.thirdTransactionPSBT.inputs.length = 3 ∧
    r.thirdTransactionPSBT.outputs.length = 2 + self.extraOutputs.length := by
  obtain ⟨utxos, c, e, n, hbu, hit, hle⟩ :=
    buildTransactions_ok_inv env self uniqueId fuel r h
  obtain ⟨addr, pay, commitOuts, ftxid, rate, hca, hmap, hcf, hsec, hwd, herate⟩ :=
    buildIteration_ok_inv env self uniqueId utxos c r e n hit
  have hclen : commitOuts.length = 2 := by
    have hl := (mapM_ok_inv hmap).1
    rw [hl, hps]
    rfl
  obtain ⟨hresne, hins, houts⟩ := createFirstTransaction_ok_inv env self utxos _ _ _ hcf
  have hfl : r.firstTransactionPSBT.outputs.length = 3 := by
    have hl := (mapM_ok_inv houts).1
    rw [hsel] at hl
    rw [hl]
    simp [hclen]
  obtain ⟨hsl, hsrev, hsfwd⟩ := mapM_ok_inv hsec
  have hslen : r.secondTransactionPSBTs.length = 2 := by
    rw [hsl, hps]
    rfl
  have he0 : self.inscriptionsPsbts.enum[0]? = some (0, p1) := by
    rw [hps]
    rfl
  have he1 : self.inscriptionsPsbts.enum[1]? = some (1, p2) := by
    rw [hps]
    rfl
  obtain ⟨s0, hs0, hc0⟩ := hsfwd 0 _ he0
  obtain ⟨s1, hs1, hc1⟩ := hsfwd 1 _ he1
  have hsmap : r.secondTransactionPSBTs.map (fun s => s.inputs.length) = [2, 2] := by
    cases hsx : r.secondTransactionPSBTs with
    | nil =>
      rw [hsx] at hslen
      simp at hslen
    | cons a t =>
      cases t with
      | nil =>
        rw [hsx] at hslen
        simp at hslen
      | cons b t2 =>
        cases t2 with
        | cons z t3 =>
          rw [hsx] at hslen
          simp at hslen
        | nil =>
          rw [hsx] at hs0 hs1
          simp at hs0 hs1
          subst hs0
          subst hs1
          obtain ⟨x0, y0, hg0, hph0, hsval0⟩ :=
            createSecondTransaction_ok_inv env self pay ftxid
              r.firstTransactionPSBT p1 a 0 hc0
          obtain ⟨x1, y1, hg1, hph1, hsval1⟩ :=
            createSecondTransaction_ok_inv env self pay ftxid
              r.firstTransactionPSBT p2 b 1 hc1
          rw [hsval0, hsval1]
          simp [h1, h2]
  have h3 := createWithdrawTransaction_ok_counts env self pay ftxid
    r.firstTransactionPSBT _ _ _ hwd
  rw [hslen] at h3
  refine ⟨hfl, hsmap, ?_, ?_⟩
  · rw [h3.1]
  · rw [h3.2]

/-- C2 witness: the scenario theorem applied to a concrete two-inscription
run at effective fee rate 8 with one configured extra output. -/
theorem c2_witness :
    respC2.firstTransactionPSBT.outputs.length = 3 ∧
    respC2.secondTransactionPSBTs.map (fun s => s.inputs.length) = [2, 2] ∧
    respC2.thirdTransactionPSBT.inputs.length = 3 ∧
    respC2.thirdTransactionPSBT.outputs.length = 2 + selfC2.extraOutputs.length :=
  c2_theorem envC2 selfC2 "uniqueId" 5 respC2 sellerPsbt1 sellerPsbt2
    (fun ins outs fr a => rfl) rfl rfl rfl rfl rfl

/-- C7: under the documented contracts of the external coin-selection and
funding library — the funding estimate covers at least the output/input
deficit, selected inputs come from the provided candidates, the selection
covers the returned outputs, the requested outputs are preserved as a
prefix, `processInput` carries the UTXO's value as witness value, and the
datasource returns distinct outpoints — every transaction returned by a
successful `buildTransactions` run (first, each second, third) has
`getTotalFees ≥ 0`: inputs never underfund outputs. -/
theorem c7_theorem (env : Env) (self : PreInscriber) (uniqueId : String) (fuel : Nat)
    (r : BuildResponse)
    (hfund : ∀ (ins : List FeeInput) (outs : List TxOutput) (fr : ℚ),
      (outs.map TxOutput.value).sum - (ins.map FeeInput.value).sum
        ≤ env.funding ins outs fr)
    (hsub : ∀ (ins : List CSInput) (outs : List Output) (fr : ℚ) (a : String),
      ∀ sel ∈ (env.coinSelect ins outs fr a).inputs, sel ∈ ins)
    (hcov : ∀ (ins : List CSInput) (outs : List Output) (fr : ℚ) (a : String),
      ((env.coinSelect ins outs fr a).outputs.filterMap CSOutput.value).sum
        ≤ ((env.coinSelect ins outs fr a).inputs.map CSInput.value).sum)
    (hord : ∀ (ins : List CSInput) (outs : List Output) (fr : ℚ) (a : String),
      (env.coinSelect ins outs fr a).outputs ≠ [] →
      ∃ rest, (env.coinSelect ins outs fr a).outputs
        = outs.map (fun o =>
            ({ address := some o.address, value := some o.value } : CSOutput)) ++ rest)
    (hproc : ∀ u : UTXO,
      inputWitnessValue (env.processInput u self.buyerPublicKey self.network) = u.sats)
    (hnodup : ((env.getUnspents self.buyerAddress).map (fun u => (u.txid, u.n))).Nodup)
    (h : buildTransactions env self uniqueId fuel = Except.ok (some r)) :
    0 ≤ getTotalFees r.firstTransactionPSBT ∧
    (∀ (i : Nat) (s : Psbt), r.secondTransactionPSBTs[i]? = some s →
      0 ≤ getTotalFees s) ∧
    0 ≤ getTotalFees r.thirdTransactionPSBT := by
  obtain ⟨utxos, c, e, n, hbu, hit, hle⟩ :=
    buildTransactions_ok_inv env self uniqueId fuel r h
  obtain ⟨addr, pay, commitOuts, ftxid, rate, hca, hmap, hcf, hsec, hwd, herate⟩ :=
    buildIteration_ok_inv env self uniqueId utxos c r e n hit
  have hnd : (utxos.map (fun u => (u.txid, u.n))).Nodup := by
    rcases getBuyerUtxos_ok_inv env self utxos hbu with hu | hu
    · rw [hu]
      exact hnodup
    · rw [hu]
      simp
  refine ⟨?_, ?_, ?_⟩
  · exact createFirstTransaction_fee env self utxos _ _ _ hnd hproc
      (hsub _ _ _ _) (hcov _ _ _ _) hcf
  · intro i s hs
    obtain ⟨hsl, hsrev, hsfwd⟩ := mapM_ok_inv hsec
    obtain ⟨pr, hpr, hcs⟩ := hsrev i s hs
    cases hpi : self.inscriptionsPsbts[i]? with
    | none =>
      rw [List.getElem?_enum, hpi] at hpr
      simp at hpr
    | some psbt_i =>
      rw [List.getElem?_enum, hpi] at hpr
      simp at hpr
      subst hpr
      obtain ⟨base, hh, hg, hph, hsval⟩ :=
        createSecondTransaction_ok_inv env self pay ftxid
          r.firstTransactionPSBT psbt_i s i hcs
      obtain ⟨out, hout, hwit, hidx, hsig⟩ :=
        generateInput_ok_inv env self.network r.firstTransactionPSBT i
          self.buyerPublicKey (some SIGHASH_ALL) base hg
      obtain ⟨hclen2, hcrev, hcfwd⟩ := mapM_ok_inv hmap
      obtain ⟨out_i, houti, hmk⟩ := hcfwd i psbt_i hpi
      obtain ⟨cs2, ch2, hcs2, hch2, hvali⟩ :=
        mkCommitFundingOutput_ok_inv env self addr pay psbt_i out_i hmk
      obtain ⟨hresne, hins, houts⟩ :=
        createFirstTransaction_ok_inv env self utxos _ _ _ hcf
      obtain ⟨rest, hres⟩ := hord _ _ _ _ hresne
      have hii : i < commitOuts.length := by
        rw [hclen2]
        exact (List.getElem?_eq_some.mp hpi).1
      have hreq : (commitOuts ++ [({ address := addr, value := c } : Output)])[i]?
          = some out_i := by
        rw [List.getElem?_append_left hii]
        exact houti
      have hcsout : (env.coinSelect (utxos.map (mkSelectionInput env self))
          (commitOuts ++ [({ address := addr, value := c } : Output)]) BASE_FEERATE
          self.buyerAddress).outputs[i]?
          = some ({ address := some out_i.address,
                    value := some out_i.value } : CSOutput) := by
        rw [hres, List.getElem?_append_left, List.getElem?_map, hreq]
        · rfl
        · rw [List.length_map, List.length_append]
          omega
      obtain ⟨y, hy, hgy⟩ := (mapM_ok_inv houts).2.2 i _ hcsout
      have houty : out = y := by
        rw [hout] at hy
        exact Option.some.inj hy
      unfold csOutputToTxOutput at hgy
      simp at hgy
      have hyval : y.value = out_i.value := by rw [← hgy]
      have hbound := hfund
        ((psbt_i.inputs ++ [dummyCommitInput env self cs2 ch2 600]).map
          (feeInputOf env "mainnet"))
        psbt_i.outputs BASE_FEERATE
      rw [feeInput_values_map] at hbound
      have hdum : ((psbt_i.inputs
          ++ [dummyCommitInput env self cs2 ch2 600]).map inputWitnessValue).sum
          = (psbt_i.inputs.map inputWitnessValue).sum + 600 := by
        rw [List.map_append, List.sum_append]
        rfl
      have hchained :
          inputWitnessValue { base with hash := ftxid, tapMerkleRoot := some hh }
            = out.value := by
        show inputWitnessValue base = out.value
        unfold inputWitnessValue
        rw [hwit]
      have houtival : out_i.value = calculateFundingAmount env
          { psbt_i with inputs := psbt_i.inputs
              ++ [dummyCommitInput env self cs2 ch2 600] } BASE_FEERATE + 600 := by
        rw [hvali]
      rw [hsval]
      unfold getTotalFees
      dsimp only
      rw [List.map_append, List.sum_append]
      have hsingle :
          (([{ base with hash := ftxid, tapMerkleRoot := some hh }] : List PsbtInput).map
            inputWitnessValue).sum = out.value := by
        simp [hchained]
      rw [hsingle, houty, hyval, houtival]
      unfold calculateFundingAmount
      rw [hdum] at hbound
      linarith [hbound]
  · have hb := hfund (r.thirdTransactionPSBT.inputs.map (feeInputOf env "mainnet"))
      r.thirdTransactionPSBT.outputs rate
    rw [feeInput_values_map] at hb
    unfold calculateFundingAmount at herate
    unfold getTotalFees
    linarith [hle, hb, herate.le, herate.ge]

/-- C7 witness: the nonnegative-fee theorem applied to the concrete
deficit-funded environment, whose coin selection and funding estimators
satisfy all contract hypotheses. -/
theorem c7_witness :
    0 ≤ getTotalFees respW7.firstTransactionPSBT ∧
    0 ≤ getTotalFees respW7.thirdTransactionPSBT := by
  have h := c7_theorem envW7 selfDiv "u" 3 respW7
    envW7_funding_contract envW7_coinSelect_sub envW7_coinSelect_cov
    envW7_coinSelect_ord (fun u => rfl) (by decide) rfl
  exact ⟨h.1, h.2.2⟩

end Ordit
